import Mathlib

/-!
Formal model of the beacon store library: the `createStore` factory
(reactive cells, derived cells, bound actions, `getStateSnapshot`), the
`compose` middleware combinator, and the `localStoragePlugin` persistence
middleware.

Modelling conventions:
* A JavaScript plain object is an association list `Obj α := List (String × α)`
  whose entries appear in insertion order; lookup returns the first binding
  (JS objects never hold duplicate keys, so first-match and last-match agree
  on faithful inputs).  The JS spread `\x7b ...a, ...b \x7d` is modelled by
  `Obj.spread a b`, which has the same key set and the same per-key lookup
  result as the JS spread (entries of `b` win on conflict).
* A JS value is `Val` (undefined, null, booleans, integers, strings); a
  Preact signal holding a value is identified with its current value inside
  the store's cell map, and mutation is explicit state passing: an action
  receives the current cell map and returns the updated cell map together
  with its JS return value.
* External effects (window.localStorage reads, console logging, `effect`
  registration) are modelled by an explicit environment `StorageEnv` and by
  event traces (`Event`): a post-creation hook is a function from the store
  to the ordered list of observable side effects it performs.
* A thrown JS exception is `Except.error`; `createStore` returns
  `Except String Store`, and functions that catch internally are total.
-/

namespace Beacon

/-- JavaScript values as far as the store library observes them. -/
inductive Val where
  | undef
  | null
  | bool (b : Bool)
  | num (n : Int)
  | str (s : String)
deriving DecidableEq, Repr

/-- A JS plain object: ordered association list from property name to value. -/
abbrev Obj (α : Type) : Type := List (String × α)

namespace Obj

/-- Property read `o[k]`: the binding for `k`, if any (first match). -/
def lookup (o : Obj α) (k : String) : Option α :=
  (o.find? (fun p => p.1 == k)).map (fun p => p.2)

/-- The JS `k in o` membership test. -/
def hasKey (o : Obj α) (k : String) : Bool :=
  o.any (fun p => p.1 == k)

/-- The list of property names of `o`, in insertion order. -/
def keys (o : Obj α) : List String :=
  o.map (fun p => p.1)

/-- Model of the JS spread `\x7b ...a, ...b \x7d`: bindings of `b` win on a
key conflict, and the key set is the union.  (Key order may differ from JS,
which keeps an overridden key at its position in `a`; no property in this
development depends on key order across a spread.) -/
def spread (a b : Obj α) : Obj α :=
  a.filter (fun p => !(hasKey b p.1)) ++ b

/-- Model of the JS shallow copy `\x7b ...o \x7d`. -/
def copy (o : Obj α) : Obj α :=
  o.map (fun p => (p.1, p.2))

/-- First-defined choice on optional lookup results: the first operand when
present, the second otherwise (the per-key semantics of a JS spread). -/
def firstSome (x y : Option α) : Option α :=
  match x with
  | some v => some v
  | none => y

/-- Assignment `o[k].value = v` to the signal stored under an existing key:
replaces the value bound to `k`, leaving other bindings untouched. -/
def set (o : Obj α) (k : String) (v : α) : Obj α :=
  o.map (fun p => if p.1 == k then (p.1, v) else p)

end Obj

/-- A derived-cell definition: a pure function of the live reactive cells
(`config.derived[key]` in the source, applied to `stateSignals`). -/
abbrev DerivedFn : Type := Obj Val → Val

/-- A caller-supplied action function `(state, ...args) => result`: it
receives the current cell values and the argument list, and is modelled as
returning the updated cell values together with its JS return value. -/
abbrev RawAction : Type := Obj Val → List Val → Obj Val × Val

/-- A bound action `(...args) => ...` as exposed on `store.actions`; the
current cell values are passed explicitly in this state-passing model. -/
abbrev BoundAction : Type := Obj Val → List Val → Obj Val × Val

/-- The property slots of the returned store object, for reasoning about the
final object literal `\x7b ...stateSignals, ...derived, actions,
getStateSnapshot \x7d` (later properties shadow earlier ones). -/
inductive StoreEntry where
  | signalRef (k : String)
  | derivedRef (k : String)
  | actionsObj
  | snapshotFn
deriving DecidableEq, Repr

/-- Observable side effects performed by post-creation hooks.
`effectRegistered name` is the persistence middleware registering its
synchronization effect for the localStorage key `name`; `custom n` tags an
effect of an arbitrary caller-supplied hook. -/
inductive Event where
  | effectRegistered (name : String)
  | custom (n : Nat)
deriving DecidableEq, Repr

/-- The store produced by `createStore`: the reactive cell values, the
derived-cell definitions, the bound action map, and the property layout of
the returned object literal. -/
structure Store where
  cells : Obj Val
  derived : Obj DerivedFn
  actions : Obj BoundAction
  props : Obj StoreEntry

/-- A post-creation hook `(store) => void`, modelled by the ordered trace of
observable side effects it performs. -/
abbrev Hook : Type := Store → List Event

/-- The `StoreConfig` interface: initial state, derived map, action map and
the optional `onStoreCreated` hook. -/
structure StoreConfig where
  initialState : Obj Val
  derived : Obj DerivedFn := []
  actions : Obj RawAction := []
  onStoreCreated : Option Hook := none

/-- The construction-time configuration error message thrown by
`createStore` when a derived key collides with a state key; `Char.ofNat 39`
is the ASCII single quote surrounding the key in the source's template
literal. -/
def conflictMsg (key : String) : String :=
  "Derived key " ++ String.singleton (Char.ofNat 39) ++ key ++
    String.singleton (Char.ofNat 39) ++ " conflicts with state signal"

/-- The derived-building loop of `createStore`: for each entry of
`config.derived` in order, throw the configuration error if its key is
already a state signal, otherwise create the computed cell. -/
def buildDerived (stateSignals : Obj Val) : Obj DerivedFn → Except String (Obj DerivedFn)
  | [] => .ok []
  | (key, f) :: rest =>
    if Obj.hasKey stateSignals key then
      .error (conflictMsg key)
    else
      match buildDerived stateSignals rest with
      | .error e => .error e
      | .ok d => .ok ((key, f) :: d)

/-- The action-wrapping step of `createStore`:
`(...args) => \x7b config.actions[actionName](stateSignals, ...args); \x7d`.
The raw function runs against the current cells with the given arguments;
its cell writes take effect, and its return value is discarded (the arrow
body is a block with no return, so the bound action returns undefined). -/
def bindAction (raw : RawAction) : BoundAction :=
  fun stateSignals args => ((raw stateSignals args).1, Val.undef)

/-- The source's `getStateSnapshot`: iterates the state signals and copies
each current value into a fresh plain object.  The source function declares
no parameter, so a caller passing `\x7b withDerived: true \x7d` has the
option silently ignored; derived cells are never consulted. -/
def getStateSnapshot (stateSignals : Obj Val) : Obj Val :=
  stateSignals.map (fun p => (p.1, p.2))

/-- The returned object literal `\x7b ...stateSignals, ...derived, actions,
getStateSnapshot \x7d` of `createStore`, at the granularity of which entity
each property name resolves to. -/
def storeProps (stateSignals : Obj Val) (derived : Obj DerivedFn) : Obj StoreEntry :=
  Obj.spread
    (Obj.spread (stateSignals.map (fun p => (p.1, StoreEntry.signalRef p.1)))
      (derived.map (fun p => (p.1, StoreEntry.derivedRef p.1))))
    [("actions", StoreEntry.actionsObj), ("getStateSnapshot", StoreEntry.snapshotFn)]

/-- The `createStore` factory: creates one signal per `initialState` field
(initialized to the configured value), builds the derived cells (throwing
the configuration error on a name collision), wraps the actions, and
returns the store object. -/
def createStore (config : StoreConfig) : Except String Store :=
  let stateSignals := Obj.copy config.initialState
  match buildDerived stateSignals config.derived with
  | .error e => .error e
  | .ok derived =>
    let actions := config.actions.map (fun p => (p.1, bindAction p.2))
    .ok { cells := stateSignals
          derived := derived
          actions := actions
          props := storeProps stateSignals derived }

/-- The `compose` middleware combinator:
`(config) => middlewares.reduce((acc, middleware) => middleware(acc), config)`. -/
def compose (middlewares : List (StoreConfig → StoreConfig)) (config : StoreConfig) : StoreConfig :=
  middlewares.foldl (fun acc middleware => middleware acc) config

/-- The durable key-value surface backing the persistence middleware:
`getItem name` is the result of `window.localStorage.getItem(name)` —
`.ok none` for a missing key, `.ok (some s)` for a stored blob, and
`.error e` when the read itself throws. -/
structure StorageEnv where
  getItem : String → Except String (Option String)

/-- The `LocalStorageOptions` record: the storage key `name`, the optional
`merge` flag (destructuring default `true`), and the deserializer (the
caller-supplied function, or the default JSON.parse; either may throw, so it
returns `Except`).  The serializer only affects the blob written inside the
synchronization effect, which this model treats as an opaque registration
event, so it is not carried here. -/
structure LocalStorageOptions where
  name : String
  merge : Option Bool := none
  deserialize : String → Except String (Obj Val)

/-- The hydration phase of `localStoragePlugin`: read the blob under
`options.name` and deserialize it, with any failure during read or
deserialize caught (and logged) and treated as the empty partial record;
a missing key or an empty stored string (falsy in the JS truthiness test
`if (stored)`) also hydrates to the empty record. -/
def hydratedState (options : LocalStorageOptions) (env : StorageEnv) : Obj Val :=
  match env.getItem options.name with
  | .error _ => []
  | .ok none => []
  | .ok (some stored) =>
    if stored == "" then []
    else
      match options.deserialize stored with
      | .error _ => []
      | .ok st => st

/-- The `localStoragePlugin` middleware: hydrates from storage (never
fatally), computes the effective initial state per the `merge` flag
(`\x7b ...config.initialState, ...storedState \x7d` when merging,
`\x7b ...storedState \x7d` otherwise), and replaces `onStoreCreated` with a
hook that first registers the localStorage synchronization effect and then
invokes the original hook if one exists. -/
def localStoragePlugin (config : StoreConfig) (options : LocalStorageOptions)
    (env : StorageEnv) : StoreConfig :=
  let merge := options.merge.getD true
  let storedState := hydratedState options env
  let initialState :=
    if merge then Obj.spread config.initialState storedState else Obj.copy storedState
  let originalOnStoreCreated := config.onStoreCreated
  let newOnStoreCreated : Hook := fun store =>
    Event.effectRegistered options.name ::
      (match originalOnStoreCreated with
       | some h => h store
       | none => [])
  { config with initialState := initialState, onStoreCreated := some newOnStoreCreated }

/-! Basic lemmas about the object model. -/

theorem Obj.lookup_cons (p : String × α) (o : Obj α) (k : String) :
    Obj.lookup (p :: o) k = if p.1 == k then some p.2 else Obj.lookup o k := by
  cases hb : p.1 == k <;> simp [Obj.lookup, List.find?, hb]

theorem Obj.hasKey_cons (p : String × α) (o : Obj α) (k : String) :
    Obj.hasKey (p :: o) k = (p.1 == k || Obj.hasKey o k) := by
  simp [Obj.hasKey]

theorem Obj.hasKey_eq_isSome (o : Obj α) (k : String) :
    Obj.hasKey o k = (Obj.lookup o k).isSome := by
  induction o with
  | nil => rfl
  | cons p t ih => cases hb : p.1 == k <;> simp [Obj.hasKey_cons, Obj.lookup_cons, hb, ih]

theorem Obj.lookup_eq_none_of_hasKey_false (o : Obj α) (k : String)
    (h : Obj.hasKey o k = false) : Obj.lookup o k = none := by
  rw [Obj.hasKey_eq_isSome] at h
  cases hl : Obj.lookup o k
  · rfl
  · rw [hl] at h; cases h

theorem Obj.lookup_append (a b : Obj α) (k : String) :
    Obj.lookup (a ++ b) k = Obj.firstSome (Obj.lookup a k) (Obj.lookup b k) := by
  induction a with
  | nil => simp [Obj.lookup, Obj.firstSome]
  | cons p t ih =>
    cases hb : p.1 == k <;> simp [Obj.lookup_cons, hb, ih, Obj.firstSome]

theorem Obj.lookup_filter_of_hasKey_false (a b : Obj α) (k : String)
    (h : Obj.hasKey b k = false) :
    Obj.lookup (a.filter (fun p => !(Obj.hasKey b p.1))) k = Obj.lookup a k := by
  induction a with
  | nil => rfl
  | cons p t ih =>
    cases hp : Obj.hasKey b p.1
    · simp [List.filter_cons, hp, Obj.lookup_cons, ih]
    · have hne : (p.1 == k) = false := by
        cases hq : p.1 == k
        · rfl
        · have hpk : p.1 = k := by simpa using hq
          rw [hpk] at hp
          rw [hp] at h
          cases h
      simp [List.filter_cons, hp, Obj.lookup_cons, hne, ih]

theorem Obj.lookup_filter_of_hasKey_true (a b : Obj α) (k : String)
    (h : Obj.hasKey b k = true) :
    Obj.lookup (a.filter (fun p => !(Obj.hasKey b p.1))) k = none := by
  induction a with
  | nil => rfl
  | cons p t ih =>
    cases hp : Obj.hasKey b p.1
    · have hne : (p.1 == k) = false := by
        cases hq : p.1 == k
        · rfl
        · have hpk : p.1 = k := by simpa using hq
          rw [hpk] at hp
          rw [h] at hp
          cases hp
      simp [List.filter_cons, hp, Obj.lookup_cons, hne, ih]
    · simp [List.filter_cons, hp, ih]

theorem Obj.lookup_spread (a b : Obj α) (k : String) :
    Obj.lookup (Obj.spread a b) k =
      Obj.firstSome (Obj.lookup b k) (Obj.lookup a k) := by
  rw [Obj.spread, Obj.lookup_append]
  cases hb : Obj.hasKey b k
  · rw [Obj.lookup_filter_of_hasKey_false a b k hb,
      Obj.lookup_eq_none_of_hasKey_false b k hb]
    cases Obj.lookup a k <;> rfl
  · rw [Obj.lookup_filter_of_hasKey_true a b k hb]
    rw [Obj.hasKey_eq_isSome] at hb
    cases hl : Obj.lookup b k
    · rw [hl] at hb; cases hb
    · rfl

theorem Obj.spread_nil (a : Obj α) : Obj.spread a [] = a := by
  induction a with
  | nil => rfl
  | cons p t ih =>
    simp [Obj.spread, Obj.hasKey] at ih ⊢

theorem Obj.copy_eq (o : Obj α) : Obj.copy o = o := by
  induction o with
  | nil => rfl
  | cons p t ih =>
    show (p.1, p.2) :: Obj.copy t = p :: t
    rw [ih]

theorem Obj.lookup_mapVal (g : α → β) (o : Obj α) (k : String) :
    Obj.lookup (o.map (fun p => (p.1, g p.2))) k = (Obj.lookup o k).map g := by
  induction o with
  | nil => rfl
  | cons p t ih => cases hb : p.1 == k <;> simp [Obj.lookup_cons, hb, ih]

theorem Obj.keys_mapVal (g : α → β) (o : Obj α) :
    Obj.keys (o.map (fun p => (p.1, g p.2))) = Obj.keys o := by
  induction o with
  | nil => rfl
  | cons p t ih =>
    show p.1 :: Obj.keys (t.map (fun p => (p.1, g p.2))) = p.1 :: Obj.keys t
    rw [ih]

theorem Obj.set_cons (p : String × α) (t : Obj α) (k : String) (v : α) :
    Obj.set (p :: t) k v = (if p.1 == k then (p.1, v) else p) :: Obj.set t k v := rfl

theorem Obj.keys_set (o : Obj α) (k : String) (v : α) :
    Obj.keys (Obj.set o k v) = Obj.keys o := by
  induction o with
  | nil => rfl
  | cons p t ih =>
    rw [Obj.set_cons]
    show ((if p.1 == k then (p.1, v) else p).1) :: Obj.keys (Obj.set t k v) = p.1 :: Obj.keys t
    rw [ih]
    cases hb : p.1 == k <;> simp [hb]

theorem Obj.lookup_set (o : Obj α) (k : String) (v : α) :
    Obj.lookup (Obj.set o k v) k = if Obj.hasKey o k then some v else none := by
  induction o with
  | nil => rfl
  | cons p t ih =>
    rw [Obj.set_cons, Obj.lookup_cons, Obj.hasKey_cons]
    cases hb : p.1 == k
    · simp [hb, ih]
    · simp [hb]

/-! Lemmas about the derived-building loop and the factory. -/

theorem buildDerived_ok_eq (st : Obj Val) (ds d : Obj DerivedFn)
    (h : buildDerived st ds = .ok d) : d = ds := by
  induction ds generalizing d with
  | nil =>
    simp [buildDerived] at h
    exact h
  | cons p t ih =>
    rw [show buildDerived st (p :: t) =
        (if Obj.hasKey st p.1 then .error (conflictMsg p.1)
         else match buildDerived st t with
           | .error e => .error e
           | .ok d2 => .ok (p :: d2)) from rfl] at h
    cases hk : Obj.hasKey st p.1
    · rw [hk] at h
      simp at h
      cases hrec : buildDerived st t with
      | error e => rw [hrec] at h; cases h
      | ok d2 =>
        rw [hrec] at h
        simp at h
        rw [← h, ih d2 hrec]
    · rw [hk] at h
      simp at h

theorem buildDerived_ok_disjoint (st : Obj Val) (ds d : Obj DerivedFn)
    (h : buildDerived st ds = .ok d) :
    ∀ k ∈ Obj.keys ds, Obj.hasKey st k = false := by
  induction ds generalizing d with
  | nil => intro k hk; cases hk
  | cons p t ih =>
    intro k hk
    rw [show buildDerived st (p :: t) =
        (if Obj.hasKey st p.1 then .error (conflictMsg p.1)
         else match buildDerived st t with
           | .error e => .error e
           | .ok d2 => .ok (p :: d2)) from rfl] at h
    cases hkst : Obj.hasKey st p.1
    · rw [hkst] at h
      simp at h
      rcases List.mem_cons.mp hk with hk1 | hk2
      · rw [hk1]; exact hkst
      · cases hrec : buildDerived st t with
        | error e => rw [hrec] at h; cases h
        | ok d2 => exact ih d2 hrec k hk2
    · rw [hkst] at h
      simp at h

theorem buildDerived_ok_of_disjoint (st : Obj Val) (ds : Obj DerivedFn)
    (h : ∀ k ∈ Obj.keys ds, Obj.hasKey st k = false) :
    buildDerived st ds = .ok ds := by
  induction ds with
  | nil => rfl
  | cons p t ih =>
    have hp : Obj.hasKey st p.1 = false := h p.1 (by simp [Obj.keys])
    have ht : buildDerived st t = .ok t :=
      ih (fun k hk => h k (by simp [Obj.keys] at hk ⊢; exact Or.inr hk))
    rw [show buildDerived st (p :: t) =
        (if Obj.hasKey st p.1 then .error (conflictMsg p.1)
         else match buildDerived st t with
           | .error e => .error e
           | .ok d2 => .ok (p :: d2)) from rfl]
    rw [hp, ht]
    simp

theorem buildDerived_error_of_collision (st : Obj Val) (ds : Obj DerivedFn)
    (h : ∃ k ∈ Obj.keys ds, Obj.hasKey st k = true) :
    ∃ k, k ∈ Obj.keys ds ∧ Obj.hasKey st k = true ∧
      buildDerived st ds = .error (conflictMsg k) := by
  induction ds with
  | nil =>
    rcases h with ⟨k, hk, _⟩
    cases hk
  | cons p t ih =>
    cases hkst : Obj.hasKey st p.1
    · have hx : ∃ k ∈ Obj.keys t, Obj.hasKey st k = true := by
        rcases h with ⟨k, hk, hkt⟩
        rcases List.mem_cons.mp hk with hk1 | hk2
        · rw [hk1] at hkt; rw [hkt] at hkst; cases hkst
        · exact ⟨k, hk2, hkt⟩
      rcases ih hx with ⟨k2, hmem, htrue, herr⟩
      refine ⟨k2, List.mem_cons_of_mem _ hmem, htrue, ?_⟩
      rw [show buildDerived st (p :: t) =
          (if Obj.hasKey st p.1 then .error (conflictMsg p.1)
           else match buildDerived st t with
             | .error e => .error e
             | .ok d2 => .ok (p :: d2)) from rfl]
      rw [hkst, herr]
      simp
    · refine ⟨p.1, by simp [Obj.keys], hkst, ?_⟩
      rw [show buildDerived st (p :: t) =
          (if Obj.hasKey st p.1 then .error (conflictMsg p.1)
           else match buildDerived st t with
             | .error e => .error e
             | .ok d2 => .ok (p :: d2)) from rfl]
      rw [hkst]
      simp

/-- Unfolds the factory after simplifying the initial signal copy. -/
theorem createStore_eq (config : StoreConfig) :
    createStore config =
      match buildDerived config.initialState config.derived with
      | .error e => .error e
      | .ok d =>
        .ok { cells := config.initialState
              derived := d
              actions := config.actions.map (fun p => (p.1, bindAction p.2))
              props := storeProps config.initialState d } := by
  rw [createStore]
  rw [Obj.copy_eq]

theorem createStore_ok_elim (config : StoreConfig) (store : Store)
    (h : createStore config = .ok store) :
    store.cells = config.initialState ∧
    store.derived = config.derived ∧
    store.actions = config.actions.map (fun p => (p.1, bindAction p.2)) ∧
    store.props = storeProps config.initialState config.derived := by
  rw [createStore_eq] at h
  cases hb : buildDerived config.initialState config.derived with
  | error e => rw [hb] at h; cases h
  | ok d =>
    rw [hb] at h
    simp at h
    have hd : d = config.derived := buildDerived_ok_eq _ _ _ hb
    rw [← h, hd]
    exact ⟨rfl, rfl, rfl, rfl⟩

theorem createStore_ok_of_disjoint (config : StoreConfig)
    (h : ∀ k ∈ Obj.keys config.derived, Obj.hasKey config.initialState k = false) :
    createStore config =
      .ok { cells := config.initialState
            derived := config.derived
            actions := config.actions.map (fun p => (p.1, bindAction p.2))
            props := storeProps config.initialState config.derived } := by
  rw [createStore_eq, buildDerived_ok_of_disjoint _ _ h]

theorem createStore_ok_disjoint (config : StoreConfig) (store : Store)
    (h : createStore config = .ok store) :
    ∀ k ∈ Obj.keys config.derived, Obj.hasKey config.initialState k = false := by
  rw [createStore_eq] at h
  cases hb : buildDerived config.initialState config.derived with
  | error e => rw [hb] at h; cases h
  | ok d => exact buildDerived_ok_disjoint _ _ _ hb

theorem getStateSnapshot_eq (cs : Obj Val) : getStateSnapshot cs = cs :=
  Obj.copy_eq cs

/-! Concrete inputs used to instantiate the theorems. -/

/-- The total extraction of the store from a successful construction,
used to state closed instances (an arbitrary empty store on error). -/
def storeOf (config : StoreConfig) : Store :=
  match createStore config with
  | .ok s => s
  | .error _ => { cells := [], derived := [], actions := [], props := [] }

/-- Model of the JS `.toUpperCase()` on the ASCII strings the tests use. -/
def upperStr (s : String) : String := String.mk (s.data.map Char.toUpper)

/-- The configuration of the repository's own snapshot test: two state
fields and one derivation that uppercases `foo`. -/
def testDerivedConfig : StoreConfig :=
  { initialState := [("foo", Val.str "bar"), ("baz", Val.str "qux")]
    derived := [("derivedFoo", fun cells =>
      match Obj.lookup cells "foo" with
      | some (Val.str s) => Val.str (upperStr s)
      | _ => Val.undef)] }

/-- An action that writes nothing and returns the number 7. -/
def rawGet7 : RawAction := fun cells _args => (cells, Val.num 7)

/-- A configuration with a single action whose raw function has a
non-undefined return value. -/
def actionReturnConfig : StoreConfig :=
  { initialState := [("foo", Val.str "bar")]
    actions := [("get7", rawGet7)] }

/-- The repository test's colliding configuration: derived key `foo`
duplicates the state key `foo`. -/
def conflictConfig : StoreConfig :=
  { initialState := [("foo", Val.str "bar")]
    derived := [("foo", fun _ => Val.undef)] }

/-- A one-field configuration. -/
def counterConfig : StoreConfig := { initialState := [("count", Val.num 0)] }

/-- A configuration whose derived map uses the reserved name `actions`. -/
def derivedShadowConfig : StoreConfig :=
  { initialState := [("foo", Val.num 1)]
    derived := [("actions", fun _ => Val.num 2)] }

/-- A configuration whose initial state uses the reserved name `actions`. -/
def shadowStateConfig : StoreConfig := { initialState := [("actions", Val.num 5)] }

/-- A storage surface whose read always throws. -/
def failEnv : StorageEnv := { getItem := fun _ => .error "boom" }

/-- Options with an innocuous deserializer, for exercising read failure. -/
def failOptions : LocalStorageOptions :=
  { name := "counter-store", deserialize := fun _ => .ok [] }

/-! Claim theorems. -/

/-- C4: `compose` applies its transforms in declared left-to-right order by
sequential reduction — `compose [m1, m2] c = m2 (m1 c)` — and composing zero
transforms is the identity. -/
theorem compose_seq_and_empty_identity (m1 m2 : StoreConfig → StoreConfig)
    (c : StoreConfig) :
    compose [m1, m2] c = m2 (m1 c) ∧ compose [] c = c :=
  ⟨rfl, rfl⟩

/-- C9: for every configuration accepted by `createStore`, the store holds
exactly one reactive cell per `initialState` field — the cell count equals
the field count — and every key reads back its configured initial value. -/
theorem createStore_one_cell_per_field (config : StoreConfig) (store : Store)
    (k : String) (h : createStore config = .ok store) :
    store.cells.length = config.initialState.length ∧
    Obj.lookup store.cells k = Obj.lookup config.initialState k := by
  have hc := (createStore_ok_elim config store h).1
  rw [hc]
  exact ⟨rfl, rfl⟩

/-- Closed instance of the C9 theorem at a one-field configuration. -/
theorem createStore_one_cell_per_field_witness :
    (storeOf counterConfig).cells.length = counterConfig.initialState.length ∧
    Obj.lookup (storeOf counterConfig).cells "count" =
      Obj.lookup counterConfig.initialState "count" :=
  createStore_one_cell_per_field counterConfig (storeOf counterConfig) "count" rfl

/-- C3: whenever some derived key is identical to a state key, `createStore`
throws the configuration error naming a colliding key — its result is
`Except.error` with that exact message, so the error propagates synchronously
and no store value is produced. -/
theorem createStore_conflict_error (config : StoreConfig)
    (h : ∃ k ∈ Obj.keys config.derived, Obj.hasKey config.initialState k = true) :
    ∃ k, k ∈ Obj.keys config.derived ∧ Obj.hasKey config.initialState k = true ∧
      createStore config = .error (conflictMsg k) := by
  rcases buildDerived_error_of_collision config.initialState config.derived h with
    ⟨k, hm, ht, he⟩
  refine ⟨k, hm, ht, ?_⟩
  rw [createStore_eq, he]

/-- Closed instance of the C3 theorem at the repository test's colliding
configuration. -/
theorem createStore_conflict_error_witness :
    ∃ k, k ∈ Obj.keys conflictConfig.derived ∧
      Obj.hasKey conflictConfig.initialState k = true ∧
      createStore conflictConfig = .error (conflictMsg k) :=
  createStore_conflict_error conflictConfig ⟨"foo", by decide, rfl⟩

/-- C2 (amended): a bound action performs exactly the raw function's cell
writes, but its return value is `undefined` — the arrow wrapper's block body
discards whatever the raw function returns. -/
theorem bound_action_writes_raw_discards_return (config : StoreConfig)
    (store : Store) (name : String) (raw : RawAction) (cells : Obj Val)
    (args : List Val) (h : createStore config = .ok store)
    (ha : Obj.lookup config.actions name = some raw) :
    (Obj.lookup store.actions name).map (fun b => b cells args) =
      some ((raw cells args).1, Val.undef) := by
  have hact := (createStore_ok_elim config store h).2.2.1
  rw [hact, Obj.lookup_mapVal, ha]
  rfl

/-- Closed instance of the C2 theorem at a store with one action. -/
theorem bound_action_writes_raw_discards_return_witness :
    (Obj.lookup (storeOf actionReturnConfig).actions "get7").map
        (fun b => b [("foo", Val.str "bar")] []) =
      some ((rawGet7 [("foo", Val.str "bar")] []).1, Val.undef) :=
  bound_action_writes_raw_discards_return actionReturnConfig
    (storeOf actionReturnConfig) "get7" rawGet7 [("foo", Val.str "bar")] []
    rfl rfl

/-- C2 counterexample: at a concrete store, invoking the bound action yields
return value `undefined` while the raw caller-supplied function invoked with
the cells yields 7 — the claim that the bound action yields the same return
value as the raw function fails. -/
theorem bound_action_return_differs_from_raw :
    (createStore actionReturnConfig).map
        (fun s => (Obj.lookup s.actions "get7").map (fun b => b s.cells [])) =
      .ok (some ([("foo", Val.str "bar")], Val.undef)) ∧
    rawGet7 [("foo", Val.str "bar")] [] = ([("foo", Val.str "bar")], Val.num 7) ∧
    Val.undef ≠ Val.num 7 := by
  refine ⟨rfl, rfl, by decide⟩

/-- C1: at the repository's own snapshot-test input, the store is built, the
derived cell `derivedFoo` currently evaluates to `"BAR"`, yet the snapshot
the source's `getStateSnapshot` produces contains only the two state fields
and no `derivedFoo` key — the function ignores the `withDerived` option
entirely, contradicting the repository's test and the documented
`withDerived: true` behaviour. -/
theorem getStateSnapshot_omits_derived_at_test_input :
    (createStore testDerivedConfig).map (fun s => getStateSnapshot s.cells) =
      .ok [("foo", Val.str "bar"), ("baz", Val.str "qux")] ∧
    (createStore testDerivedConfig).map
        (fun s => Obj.hasKey (getStateSnapshot s.cells) "derivedFoo") = .ok false ∧
    (createStore testDerivedConfig).map
        (fun s => (Obj.lookup s.derived "derivedFoo").map (fun f => f s.cells)) =
      .ok (some (Val.str "BAR")) :=
  ⟨rfl, rfl, rfl⟩

/-- C8: a snapshot taken with no options is a plain record whose keys are
exactly the `initialState` fields, each bound to the cell's value at call
time; no derived key ever appears even when derivations exist; and because
nothing is cached, a snapshot taken after a cell write reads the new value. -/
theorem getStateSnapshot_without_options (config : StoreConfig) (store : Store)
    (cs : Obj Val) (k dk : String) (v : Val)
    (h : createStore config = .ok store)
    (hdk : dk ∈ Obj.keys store.derived) :
    Obj.keys (getStateSnapshot store.cells) = Obj.keys config.initialState ∧
    Obj.lookup (getStateSnapshot cs) k = Obj.lookup cs k ∧
    Obj.hasKey (getStateSnapshot store.cells) dk = false ∧
    Obj.lookup (getStateSnapshot (Obj.set cs k v)) k =
      (if Obj.hasKey cs k then some v else none) := by
  obtain ⟨hc, hd, -, -⟩ := createStore_ok_elim config store h
  have hdisj := createStore_ok_disjoint config store h
  refine ⟨?_, ?_, ?_, ?_⟩
  · rw [getStateSnapshot_eq, hc]
  · rw [getStateSnapshot_eq]
  · rw [getStateSnapshot_eq, hc]
    rw [hd] at hdk
    exact hdisj dk hdk
  · rw [getStateSnapshot_eq, Obj.lookup_set]

/-- Closed instance of the C8 theorem at the snapshot-test configuration. -/
theorem getStateSnapshot_without_options_witness :
    Obj.keys (getStateSnapshot (storeOf testDerivedConfig).cells) =
      Obj.keys testDerivedConfig.initialState ∧
    Obj.lookup (getStateSnapshot [("foo", Val.str "x")]) "foo" =
      Obj.lookup [("foo", Val.str "x")] "foo" ∧
    Obj.hasKey (getStateSnapshot (storeOf testDerivedConfig).cells) "derivedFoo" = false ∧
    Obj.lookup (getStateSnapshot (Obj.set [("foo", Val.str "x")] "foo" (Val.str "y"))) "foo" =
      (if Obj.hasKey [("foo", Val.str "x")] "foo" then some (Val.str "y") else none) :=
  getStateSnapshot_without_options testDerivedConfig (storeOf testDerivedConfig)
    [("foo", Val.str "x")] "foo" "derivedFoo" (Val.str "y") rfl (by decide)

/-- C5: the persistence middleware's output initial state is the base
initial state overlaid by the hydrated record — hydrated fields win on key
conflict — when `merge` is true or omitted, and is the hydrated record alone
when `merge` is false. -/
theorem localStoragePlugin_merge_policy (config : StoreConfig)
    (options : LocalStorageOptions) (env : StorageEnv) (k : String) :
    (localStoragePlugin config options env).initialState =
      (if options.merge.getD true then
        Obj.spread config.initialState (hydratedState options env)
      else hydratedState options env) ∧
    Obj.lookup (localStoragePlugin config options env).initialState k =
      (if options.merge.getD true then
        Obj.firstSome (Obj.lookup (hydratedState options env) k)
          (Obj.lookup config.initialState k)
      else Obj.lookup (hydratedState options env) k) := by
  have h0 : (localStoragePlugin config options env).initialState =
      (if options.merge.getD true then
        Obj.spread config.initialState (hydratedState options env)
      else Obj.copy (hydratedState options env)) := rfl
  cases hm : options.merge.getD true
  · refine ⟨?_, ?_⟩
    · rw [h0, hm]
      simp [Obj.copy_eq]
    · rw [h0, hm]
      simp [Obj.copy_eq]
  · refine ⟨?_, ?_⟩
    · rw [h0, hm]
      simp
    · rw [h0, hm]
      simp
      exact Obj.lookup_spread _ _ _

/-- C6: when the storage read or the deserializer throws, the middleware
recovers — hydration is the empty record, the output configuration's initial
state equals the base `initialState` under the default `merge`, and store
construction on the transformed configuration behaves exactly as on the base
configuration.  In this model `localStoragePlugin` is a total function, so
no exception escapes it. -/
theorem hydration_failure_recovered (config : StoreConfig)
    (options : LocalStorageOptions) (env : StorageEnv)
    (hmerge : options.merge.getD true = true)
    (hfail : (∃ e, env.getItem options.name = .error e) ∨
      (∃ s e, env.getItem options.name = .ok (some s) ∧ (s == "") = false ∧
        options.deserialize s = .error e)) :
    hydratedState options env = [] ∧
    (localStoragePlugin config options env).initialState = config.initialState ∧
    createStore (localStoragePlugin config options env) = createStore config := by
  have hh : hydratedState options env = [] := by
    rcases hfail with ⟨e, he⟩ | ⟨s, e, hs, hne, hd⟩
    · simp [hydratedState, he]
    · simp [hydratedState, hs, hne, hd]
  have h0 : (localStoragePlugin config options env).initialState =
      (if options.merge.getD true then
        Obj.spread config.initialState (hydratedState options env)
      else Obj.copy (hydratedState options env)) := rfl
  have hinit : (localStoragePlugin config options env).initialState =
      config.initialState := by
    rw [h0, hmerge, hh]
    simp [Obj.spread_nil]
  have hder : (localStoragePlugin config options env).derived = config.derived := rfl
  have hact : (localStoragePlugin config options env).actions = config.actions := rfl
  refine ⟨hh, hinit, ?_⟩
  rw [createStore_eq, createStore_eq, hinit, hder, hact]

/-- Closed instance of the C6 theorem under an always-throwing storage read. -/
theorem hydration_failure_recovered_witness :
    hydratedState failOptions failEnv = [] ∧
    (localStoragePlugin counterConfig failOptions failEnv).initialState =
      counterConfig.initialState ∧
    createStore (localStoragePlugin counterConfig failOptions failEnv) =
      createStore counterConfig :=
  hydration_failure_recovered counterConfig failOptions failEnv rfl
    (Or.inl ⟨"boom", rfl⟩)

/-- C7: the hook installed by the persistence middleware first performs the
persistence wiring (registers the synchronization effect) and then invokes
the prior hook exactly once — its side-effect trace is the wiring event
followed by the prior hook's trace — and when the base configuration has no
hook, the trace is the wiring event alone. -/
theorem localStoragePlugin_hook_chaining (config : StoreConfig)
    (options : LocalStorageOptions) (env : StorageEnv) (store : Store) :
    ((localStoragePlugin config options env).onStoreCreated).map (fun g => g store) =
      some (Event.effectRegistered options.name ::
        (match config.onStoreCreated with
         | some h => h store
         | none => [])) := rfl

/-- C10 (amended): on any successfully constructed store whose state schema
or derived map uses the reserved names `actions` or `getStateSnapshot`, the
store object's property under that name is the store's own action map or
snapshot function — the colliding cell is shadowed by the later entries of
the returned object literal — while `getStateSnapshot` reports the field's
value exactly when the field lives in `initialState` (a shadowed derived
field is absent from snapshots). -/
theorem reserved_names_shadow_cells (config : StoreConfig) (nm : String)
    (hnm : nm = "actions" ∨ nm = "getStateSnapshot")
    (hdisj : ∀ k ∈ Obj.keys config.derived, Obj.hasKey config.initialState k = false)
    (_hmem : Obj.hasKey config.initialState nm = true ∨ nm ∈ Obj.keys config.derived) :
    ∃ store, createStore config = .ok store ∧
      Obj.lookup store.props nm =
        some (if nm = "actions" then StoreEntry.actionsObj else StoreEntry.snapshotFn) ∧
      Obj.lookup (getStateSnapshot store.cells) nm = Obj.lookup config.initialState nm := by
  refine ⟨_, createStore_ok_of_disjoint config hdisj, ?_, ?_⟩
  · show Obj.lookup (storeProps config.initialState config.derived) nm = _
    rw [storeProps, Obj.lookup_spread]
    rcases hnm with h1 | h1
    · rw [h1]
      rfl
    · rw [h1]
      rfl
  · show Obj.lookup (getStateSnapshot config.initialState) nm = _
    rw [getStateSnapshot_eq]

/-- Closed instance of the C10 theorem at a state schema with a field named
`actions`. -/
theorem reserved_names_shadow_cells_witness :
    ∃ store, createStore shadowStateConfig = .ok store ∧
      Obj.lookup store.props "actions" =
        some (if "actions" = "actions" then StoreEntry.actionsObj
          else StoreEntry.snapshotFn) ∧
      Obj.lookup (getStateSnapshot store.cells) "actions" =
        Obj.lookup shadowStateConfig.initialState "actions" :=
  reserved_names_shadow_cells shadowStateConfig "actions" (Or.inl rfl)
    (by decide) (Or.inl rfl)

/-- C10 counterexample: with a derived cell named `actions`, the store is
built and the store object's `actions` property is the action map (the
derived cell is unreachable), but `getStateSnapshot` does not report the
field's value — the derived cell currently evaluates to 2 and no `actions`
key occurs in the snapshot — refuting the claim's snapshot clause for
derived-map fields. -/
theorem derived_shadow_not_in_snapshot :
    (createStore derivedShadowConfig).map (fun s => Obj.lookup s.props "actions") =
      .ok (some StoreEntry.actionsObj) ∧
    (createStore derivedShadowConfig).map
        (fun s => Obj.hasKey (getStateSnapshot s.cells) "actions") = .ok false ∧
    (createStore derivedShadowConfig).map
        (fun s => (Obj.lookup s.derived "actions").map (fun f => f s.cells)) =
      .ok (some (Val.num 2)) :=
  ⟨rfl, rfl, rfl⟩

end Beacon
